/-
Verification of `daily_digest.py` (takopi-railway).

Shallow embedding conventions:
  * Python strings are modelled as `List Char` (a Python `str` is a sequence
    of Unicode code points, as is a Lean `List Char`); a few places use Lean
    `String` (which wraps a `List Char`) where that is more convenient.
  * The `while text:` chunking loop of `send_telegram` is modelled by a
    structurally recursive function with an explicit fuel argument equal to
    `text.length`; the lemma `splitChunksF_fuel_congr` shows any fuel of at
    least `text.length` gives the same result, so the fuel never runs out
    (each iteration removes at least one character), and
    `splitChunks_cons`/`splitChunks_small`/`splitChunks_nil` recover the
    exact recurrence of the Python loop.
  * JSON values are modelled by the inductive `Json`; Python operations that
    can raise (`.get` on a non-dict, subscripting, formatting a non-number,
    `in` on a non-container, ...) are modelled in the `Except String` monad,
    where `.error` means the Python code raises an exception.
  * Python float formatting (`f"{x:+.1f}"` etc.) is rendered by `fmtSigned`,
    `fmtComma`, `fmtComma2`, `fmtFixed`: the exact digit strings produced by
    Python's float formatting are not modelled (no claim depends on digits);
    only the fact that formatting a non-number raises is modelled faithfully
    (via `pyToNum`).  Rational arithmetic stands in for float arithmetic.
-/
import Mathlib

namespace DailyDigest

/-! ## Chunk splitting (`send_telegram`, lines 296-306) -/

/-- Telegram's maximum message length (`max_len = 4096` in the source). -/
def max_len : Nat := 4096

/-- Index of the last occurrence of `c` in `l`, if any.
`lastIdxOf c (l.take max_len)` models Python's `text.rfind("\n", 0, max_len)`
(with `none` playing the role of `-1`). -/
def lastIdxOf (c : Char) : List Char → Option Nat
  | [] => none
  | a :: as =>
      match lastIdxOf c as with
      | some i => some (i + 1)
      | none => if a = c then some 0 else none

/-- The split position chosen by one iteration of the loop:
`split_at = text.rfind("\n", 0, max_len); if split_at < max_len // 2: split_at = max_len`.
(A `rfind` result of `-1` is `none` here, and `-1 < max_len // 2` holds, so the
`none` case also hard-cuts at `max_len`.) -/
def findSplit (text : List Char) : Nat :=
  match lastIdxOf '\n' (text.take max_len) with
  | some i => if i < max_len / 2 then max_len else i
  | none => max_len

/-- Fuel-indexed version of the `while text:` chunking loop.  Each loop
iteration removes at least one character (in fact at least `max_len / 2`),
so fuel `text.length` always suffices (`splitChunksF_fuel_congr`). -/
def splitChunksF : Nat → List Char → List (List Char)
  | _, [] => []
  | 0, _ :: _ => []
  | fuel + 1, a :: as =>
      let text := a :: as
      if text.length ≤ max_len then [text]
      else
        let r := findSplit text
        text.take r :: splitChunksF fuel ((text.drop r).dropWhile (fun ch => ch = '\n'))

/-- The list `chunks` computed by `send_telegram` for a given `text`. -/
def splitChunks (text : List Char) : List (List Char) :=
  splitChunksF text.length text

/-! ## Formatter (`format_digest`, lines 346-357) -/

/-- `header = f"📰 Morning Crypto Digest — {today}\n"`. -/
def digestHeader (dateStr : List Char) : List Char :=
  "📰 Morning Crypto Digest — ".data ++ dateStr ++ ['\n']

/-- `footer = "\n—\nPowered by CoinGecko | AI Summary"`. -/
def digestFooter : List Char :=
  "\n—\nPowered by CoinGecko | AI Summary".data

/-- `format_digest(summary)`, with the current date passed explicitly.
Mirrors:
`max_body = 4096 - len(header) - len(footer) - 50`,
`body = summary[:max_body]`, `if len(summary) > max_body: body += "..."`,
`return header + "\n" + body + footer`. -/
def format_digest (dateStr summary : List Char) : List Char :=
  let header := digestHeader dateStr
  let footer := digestFooter
  let maxBody := 4096 - header.length - footer.length - 50
  let body := summary.take maxBody
  let body := if maxBody < summary.length then body ++ "...".data else body
  header ++ '\n' :: (body ++ footer)

/-! ## Basic facts about `findSplit` -/

theorem lastIdxOf_lt_length {c : Char} : ∀ {l : List Char} {i : Nat},
    lastIdxOf c l = some i → i < l.length := by
  intro l
  induction l with
  | nil => intro i h; simp [lastIdxOf] at h
  | cons a as ih =>
      intro i h
      simp only [lastIdxOf] at h
      cases hrec : lastIdxOf c as with
      | some j =>
          rw [hrec] at h
          cases h
          have := ih hrec
          simp only [List.length_cons]
          omega
      | none =>
          rw [hrec] at h
          by_cases hac : a = c
          · simp [hac] at h
            cases h
            simp
          · simp [hac] at h

theorem findSplit_le (text : List Char) : findSplit text ≤ max_len := by
  unfold findSplit
  cases h : lastIdxOf '\n' (text.take max_len) with
  | some i =>
      have hi : i < (text.take max_len).length := lastIdxOf_lt_length h
      have : (text.take max_len).length ≤ max_len := by
        simp [List.length_take]
      by_cases hlt : i < max_len / 2
      · simp [hlt]
      · simp only [hlt, if_false]
        omega
  | none => simp

theorem half_le_findSplit (text : List Char) : max_len / 2 ≤ findSplit text := by
  unfold findSplit max_len
  cases h : lastIdxOf '\n' (text.take 4096) with
  | some i =>
      by_cases hlt : i < 4096 / 2 <;> simp only [hlt, if_true, if_false] <;> omega
  | none => simp

theorem findSplit_pos (text : List Char) : 0 < findSplit text := by
  have := half_le_findSplit text
  simp [max_len] at this
  omega

/-! ## Fuel adequacy and the loop recurrence -/

theorem rest_length_lt {text : List Char} (h : text ≠ []) :
    ((text.drop (findSplit text)).dropWhile (fun ch => ch = '\n')).length < text.length := by
  have hdw := (List.dropWhile_sublist (l := text.drop (findSplit text))
    (fun ch => decide (ch = '\n'))).length_le
  have hdrop : (text.drop (findSplit text)).length = text.length - findSplit text :=
    List.length_drop _ _
  have hr := findSplit_pos text
  have hpos : 0 < text.length := List.length_pos.mpr h
  omega

theorem splitChunksF_fuel_congr : ∀ (f₁ f₂ : Nat) (text : List Char),
    text.length ≤ f₁ → text.length ≤ f₂ →
    splitChunksF f₁ text = splitChunksF f₂ text := by
  intro f₁
  induction f₁ using Nat.strong_induction_on with
  | _ f₁ ih =>
      intro f₂ text h₁ h₂
      match text with
      | [] => cases f₁ <;> cases f₂ <;> rfl
      | a :: as =>
          match f₁, f₂ with
          | 0, _ => simp at h₁
          | _ + 1, 0 => simp at h₂
          | g₁ + 1, g₂ + 1 =>
              simp only [splitChunksF]
              simp only [List.length_cons] at h₁ h₂
              by_cases hle : as.length + 1 ≤ max_len
              · simp only [List.length_cons, hle, if_true]
              · simp only [List.length_cons, hle, if_false]
                congr 1
                have hlt := rest_length_lt (show (a :: as : List Char) ≠ [] by simp)
                simp only [List.length_cons] at hlt
                exact ih g₁ (by omega) g₂ _ (by omega) (by omega)

theorem splitChunks_nil : splitChunks [] = [] := rfl

theorem splitChunks_small {text : List Char} (hne : text ≠ [])
    (hle : text.length ≤ max_len) : splitChunks text = [text] := by
  match text with
  | [] => exact absurd rfl hne
  | a :: as =>
      unfold splitChunks
      simp only [List.length_cons, splitChunksF]
      simp [hle] at hle ⊢
      omega

theorem splitChunks_cons {text : List Char} (h : max_len < text.length) :
    splitChunks text =
      text.take (findSplit text) ::
        splitChunks ((text.drop (findSplit text)).dropWhile (fun ch => ch = '\n')) := by
  match text with
  | [] => simp at h
  | a :: as =>
      unfold splitChunks
      have hlen : (a :: as).length = as.length + 1 := by simp
      rw [hlen]
      simp only [splitChunksF]
      have hnle : ¬ (a :: as).length ≤ max_len := by omega
      simp only [hnle, if_false]
      congr 1
      have hlt := rest_length_lt (show (a :: as : List Char) ≠ [] by simp)
      simp only [List.length_cons] at hlt
      exact splitChunksF_fuel_congr as.length _ _ (by omega) (le_refl _)

/-! ## `lastIdxOf` is Python's `rfind`: correctness lemmas -/

theorem lastIdxOf_eq_none {c : Char} : ∀ {l : List Char}, lastIdxOf c l = none →
    ∀ j : Nat, l[j]? ≠ some c := by
  intro l
  induction l with
  | nil => intro _ j; simp
  | cons a as ih =>
      intro h j
      simp only [lastIdxOf] at h
      cases hrec : lastIdxOf c as with
      | some k => rw [hrec] at h; cases h
      | none =>
          rw [hrec] at h
          have hac : ¬ a = c := by
            by_cases hac : a = c
            · simp [hac] at h
            · exact hac
          match j with
          | 0 => simpa using hac
          | j + 1 => simpa using ih hrec j

theorem lastIdxOf_eq_some {c : Char} : ∀ {l : List Char} {i : Nat},
    lastIdxOf c l = some i →
    l[i]? = some c ∧ ∀ j : Nat, i < j → l[j]? ≠ some c := by
  intro l
  induction l with
  | nil => intro i h; simp [lastIdxOf] at h
  | cons a as ih =>
      intro i h
      simp only [lastIdxOf] at h
      cases hrec : lastIdxOf c as with
      | some k =>
          rw [hrec] at h
          cases h
          obtain ⟨hget, hmax⟩ := ih hrec
          refine ⟨by simpa using hget, ?_⟩
          intro j hj
          match j with
          | 0 => omega
          | j + 1 => simpa using hmax j (by omega)
      | none =>
          rw [hrec] at h
          by_cases hac : a = c
          · simp only [hac, if_true] at h
            cases h
            refine ⟨by simp [hac], ?_⟩
            intro j hj
            match j with
            | 0 => omega
            | j + 1 => simpa using lastIdxOf_eq_none hrec j
          · simp [hac] at h

theorem lastIdxOf_append (c : Char) (l₁ l₂ : List Char) :
    lastIdxOf c (l₁ ++ l₂) =
      match lastIdxOf c l₂ with
      | some i => some (l₁.length + i)
      | none => lastIdxOf c l₁ := by
  induction l₁ with
  | nil =>
      simp only [List.nil_append, List.length_nil]
      cases lastIdxOf c l₂ <;> simp [lastIdxOf]
  | cons a as ih =>
      cases h₂ : lastIdxOf c l₂ with
      | some i =>
          rw [h₂] at ih
          simp only at ih
          simp only [List.cons_append, lastIdxOf, List.append_eq, ih, List.length_cons]
          have harith : as.length + i + 1 = as.length + 1 + i := by omega
          rw [harith]
      | none =>
          rw [h₂] at ih
          simp only at ih
          simp only [List.cons_append, lastIdxOf, List.append_eq, ih]

theorem lastIdxOf_replicate_of_ne {a c : Char} (h : ¬ a = c) (n : Nat) :
    lastIdxOf c (List.replicate n a) = none := by
  induction n with
  | zero => rfl
  | succ m ih => simp [List.replicate_succ, lastIdxOf, ih, h]

theorem dropWhileNl_replicate_of_ne {a c : Char} (h : ¬ a = c) (n : Nat) :
    List.dropWhile (fun ch => ch = c) (List.replicate n a) = List.replicate n a := by
  cases n with
  | zero => rfl
  | succ m => simp [List.replicate_succ, List.dropWhile_cons, h]

/-! ## Invariants of the chunk list -/

theorem mem_splitChunks_ne_nil (text : List Char) : ∀ c ∈ splitChunks text, c ≠ [] := by
  by_cases hnil : text = []
  · subst hnil; simp [splitChunks_nil]
  · by_cases hle : text.length ≤ max_len
    · rw [splitChunks_small hnil hle]
      intro c hc
      simp only [List.mem_singleton] at hc
      subst hc; exact hnil
    · push_neg at hle
      rw [splitChunks_cons hle]
      intro c hc
      rcases List.mem_cons.mp hc with h | h
      · subst h
        have hr := findSplit_pos text
        simp only [ne_eq, List.take_eq_nil_iff]
        push_neg
        exact ⟨by omega, hnil⟩
      · exact mem_splitChunks_ne_nil _ _ h
termination_by text.length
decreasing_by exact rest_length_lt hnil

theorem mem_splitChunks_length_le (text : List Char) :
    ∀ c ∈ splitChunks text, c.length ≤ max_len := by
  by_cases hnil : text = []
  · subst hnil; simp [splitChunks_nil]
  · by_cases hle : text.length ≤ max_len
    · rw [splitChunks_small hnil hle]
      intro c hc
      simp only [List.mem_singleton] at hc
      subst hc; exact hle
    · push_neg at hle
      rw [splitChunks_cons hle]
      intro c hc
      rcases List.mem_cons.mp hc with h | h
      · subst h
        calc (text.take (findSplit text)).length ≤ findSplit text := List.length_take_le _ _
          _ ≤ max_len := findSplit_le text
      · exact mem_splitChunks_length_le _ _ h
termination_by text.length
decreasing_by exact rest_length_lt hnil

theorem splitChunks_flatten_sublist (text : List Char) :
    (splitChunks text).flatten.Sublist text := by
  by_cases hnil : text = []
  · subst hnil; simp [splitChunks_nil]
  · by_cases hle : text.length ≤ max_len
    · rw [splitChunks_small hnil hle]; simp
    · push_neg at hle
      rw [splitChunks_cons hle]
      have hrec := splitChunks_flatten_sublist
        ((text.drop (findSplit text)).dropWhile (fun ch => ch = '\n'))
      have hdw : ((text.drop (findSplit text)).dropWhile (fun ch => ch = '\n')).Sublist
          (text.drop (findSplit text)) := List.dropWhile_sublist _
      have h1 := hrec.trans hdw
      have h2 := h1.append_left (text.take (findSplit text))
      rw [List.take_append_drop] at h2
      simpa using h2
termination_by text.length
decreasing_by exact rest_length_lt hnil

theorem splitChunks_count (text : List Char) (ch : Char) (hch : ch ≠ '\n') :
    (splitChunks text).flatten.count ch = text.count ch := by
  by_cases hnil : text = []
  · subst hnil; simp [splitChunks_nil]
  · by_cases hle : text.length ≤ max_len
    · rw [splitChunks_small hnil hle]; simp
    · push_neg at hle
      rw [splitChunks_cons hle]
      have hrec := splitChunks_count
        ((text.drop (findSplit text)).dropWhile (fun ch => ch = '\n')) ch hch
      have hzero : (List.takeWhile (fun c => c = '\n') (text.drop (findSplit text))).count ch
          = 0 := by
        apply List.count_eq_zero_of_not_mem
        intro hmem
        have hall := List.all_takeWhile (p := fun c => decide (c = '\n'))
          (l := text.drop (findSplit text))
        rw [List.all_eq_true] at hall
        have := hall ch hmem
        simp at this
        exact hch this
      have hsplit := List.takeWhile_append_dropWhile
        (p := fun c => decide (c = '\n')) (l := text.drop (findSplit text))
      calc (List.flatten (text.take (findSplit text) :: splitChunks
              ((text.drop (findSplit text)).dropWhile (fun ch => ch = '\n')))).count ch
          = (text.take (findSplit text)).count ch
            + ((text.drop (findSplit text)).dropWhile (fun ch => ch = '\n')).count ch := by
            simp [hrec]
        _ = (text.take (findSplit text)).count ch
            + ((List.takeWhile (fun c => c = '\n') (text.drop (findSplit text))).count ch
              + ((text.drop (findSplit text)).dropWhile (fun ch => ch = '\n')).count ch) := by
            rw [hzero]; omega
        _ = (text.take (findSplit text)).count ch + (text.drop (findSplit text)).count ch := by
            rw [← List.count_append, hsplit]
        _ = text.count ch := by rw [← List.count_append, List.take_append_drop]
termination_by text.length
decreasing_by exact rest_length_lt hnil

/-! ## Length of the formatted digest (claim C1) -/

theorem digestHeader_length {dateStr : List Char} (h : dateStr.length = 10) :
    (digestHeader dateStr).length = 37 := by
  have h26 : ("📰 Morning Crypto Digest — ".data).length = 26 := rfl
  simp [digestHeader, h26, h]

theorem digestFooter_length : digestFooter.length = 36 := rfl

theorem format_digest_length {dateStr : List Char} (summary : List Char)
    (h : dateStr.length = 10) :
    (format_digest dateStr summary).length ≤ 4050 ∧
    (format_digest dateStr summary).length ≤ max_len := by
  have hh := digestHeader_length h
  have hf := digestFooter_length
  have hd : ("...".data).length = 3 := rfl
  have ht := List.length_take_le (4096 - (digestHeader dateStr).length
    - digestFooter.length - 50) summary
  simp only [format_digest]
  by_cases hc : 4096 - (digestHeader dateStr).length - digestFooter.length - 50
      < summary.length
  · rw [if_pos hc]
    simp only [List.length_append, List.length_cons, hd, hh, hf, max_len] at ht ⊢
    omega
  · rw [if_neg hc]
    simp only [List.length_append, List.length_cons, hh, hf, max_len] at ht ⊢
    omega

/-- Summary one character longer than the formatter's body budget. -/
def c1Summary : List Char := List.replicate 3974 'x'

theorem c1Summary_length : c1Summary.length = 3974 := by
  rw [c1Summary, List.length_replicate]

theorem c1_formatted_length :
    (format_digest "2026-10-12".data c1Summary).length = 4050 := by
  have hh : (digestHeader "2026-10-12".data).length = 37 := rfl
  have hf := digestFooter_length
  have hmb : 4096 - (digestHeader "2026-10-12".data).length
      - digestFooter.length - 50 = 3973 := by rw [hh, hf]
  have hcond : 4096 - (digestHeader "2026-10-12".data).length
      - digestFooter.length - 50 < c1Summary.length := by
    rw [hmb, c1Summary_length]
    norm_num
  have htake : c1Summary.take (4096 - (digestHeader "2026-10-12".data).length
      - digestFooter.length - 50) = List.replicate 3973 'x' := by
    rw [hmb, c1Summary, List.take_replicate, Nat.min_eq_left (by norm_num)]
  simp only [format_digest]
  rw [if_pos hcond, htake]
  simp only [List.length_append, List.length_cons, List.length_replicate, hh, hf]
  rfl

/-! ## Claim C1 -/

/-- **C1** (amended).  For every summary and every 10-character date string, the
output of `format_digest` — header, truncated body with ellipsis marker, footer
— has total length at most 4050, and in particular never exceeds the messaging
provider's maximum of 4096 characters.  (The original claim's parenthetical —
that the total also stays under the cap minus the 50-character safety margin —
is false: the extra blank-line newline and the 3-character ellipsis can push
the total up to 4050 = 4096 - 46 > 4046; see `C1_counterexample`.) -/
theorem C1_format_digest_bounded (dateStr summary : List Char)
    (h : dateStr.length = 10) :
    (format_digest dateStr summary).length ≤ max_len ∧
    (format_digest dateStr summary).length ≤ 4050 :=
  ⟨(format_digest_length summary h).2, (format_digest_length summary h).1⟩

theorem C1_format_digest_bounded_witness :
    ("2026-10-12".data.length = 10) ∧
    (format_digest "2026-10-12".data "hello".data).length ≤ max_len :=
  ⟨by decide, (C1_format_digest_bounded "2026-10-10".data "hello".data (by decide)).1⟩

/-- **C1** counterexample to the claim as stated: for a 3974-character summary
the formatted output has length 4050, which exceeds the cap minus the safety
margin (4096 - 50 = 4046), refuting the parenthetical part of the claim. -/
theorem C1_counterexample :
    max_len - 50 < (format_digest "2026-10-12".data c1Summary).length ∧
    (format_digest "2026-10-12".data c1Summary).length = 4050 := by
  rw [c1_formatted_length]
  exact ⟨by norm_num [max_len], rfl⟩

/-! ## Claim C2 -/

/-- **C2** (amended).  For every input text, the chunk list computed by
`send_telegram` satisfies: the concatenation of all chunks is a sublist of the
original text; the only characters dropped are newline characters (the counts
of all other characters are preserved); and no chunk exceeds the 4096-character
maximum.  (The original claim — that concatenating the chunks, after stripping
leading newlines, reproduces the text exactly — is false: the newline runs at
the chunk boundaries are removed from the text and appear in no chunk, see
`C2_counterexample`.) -/
theorem C2_splitting_contract (text : List Char) :
    (splitChunks text).flatten.Sublist text ∧
    (∀ ch : Char, ch ≠ '\n' → (splitChunks text).flatten.count ch = text.count ch) ∧
    ∀ c ∈ splitChunks text, c.length ≤ max_len :=
  ⟨splitChunks_flatten_sublist text,
   fun ch h => splitChunks_count text ch h,
   mem_splitChunks_length_le text⟩

theorem C2_splitting_contract_witness :
    (('x' : Char) ≠ '\n') ∧
    (splitChunks "x\ny".data).flatten.count 'x' = "x\ny".data.count 'x' :=
  ⟨by decide, (C2_splitting_contract "x\ny".data).2.1 'x' (by decide)⟩

/-- A 4501-character text whose split point lands on a newline. -/
def chunkCexA : List Char := List.replicate 3000 'a'

def chunkCexB : List Char := List.replicate 1500 'b'

def chunkCex : List Char := chunkCexA ++ '\n' :: chunkCexB

theorem chunkCexA_length : chunkCexA.length = 3000 := by
  rw [chunkCexA, List.length_replicate]

theorem chunkCexB_length : chunkCexB.length = 1500 := by
  rw [chunkCexB, List.length_replicate]

theorem chunkCex_length : chunkCex.length = 4501 := by
  rw [chunkCex, List.length_append, chunkCexA_length, List.length_cons, chunkCexB_length]

theorem chunkCex_take_max :
    chunkCex.take max_len = chunkCexA ++ '\n' :: List.replicate 1095 'b' := by
  rw [show chunkCex = chunkCexA ++ '\n' :: chunkCexB from rfl]
  rw [List.take_append_eq_append_take]
  rw [List.take_of_length_le (by rw [chunkCexA_length]; norm_num [max_len])]
  have h1 : max_len - chunkCexA.length = 1095 + 1 := by
    rw [chunkCexA_length]
    norm_num [max_len]
  rw [h1, List.take_succ_cons]
  rw [chunkCexB, List.take_replicate, Nat.min_eq_left (by norm_num)]

theorem chunkCex_findSplit : findSplit chunkCex = 3000 := by
  have h0 : lastIdxOf '\n' ('\n' :: List.replicate 1095 'b') = some 0 := by
    have hrep := lastIdxOf_replicate_of_ne (show ¬ 'b' = '\n' by decide) 1095
    unfold lastIdxOf
    rw [hrep]
    rfl
  have h1 : lastIdxOf '\n' (chunkCex.take max_len) = some 3000 := by
    rw [chunkCex_take_max, lastIdxOf_append, h0]
    simp only [chunkCexA_length, Nat.add_zero]
  unfold findSplit
  rw [h1]
  norm_num [max_len]

theorem chunkCex_splits : splitChunks chunkCex = [chunkCexA, chunkCexB] := by
  rw [splitChunks_cons (by rw [chunkCex_length]; norm_num [max_len])]
  rw [chunkCex_findSplit]
  have htk : chunkCex.take 3000 = chunkCexA := by
    rw [show chunkCex = chunkCexA ++ '\n' :: chunkCexB from rfl]
    rw [List.take_append_eq_append_take]
    rw [List.take_of_length_le (by rw [chunkCexA_length])]
    rw [chunkCexA_length]
    simp only [Nat.sub_self, List.take_zero, List.append_nil]
  have hdrp : chunkCex.drop 3000 = '\n' :: chunkCexB := by
    rw [show chunkCex = chunkCexA ++ '\n' :: chunkCexB from rfl]
    rw [List.drop_append_eq_append_drop]
    rw [chunkCexA_length]
    rw [show chunkCexA = List.replicate 3000 'a' from rfl, List.drop_replicate]
    simp only [Nat.sub_self, List.replicate_zero, List.nil_append, List.drop_zero]
  rw [htk, hdrp]
  have hdw : List.dropWhile (fun ch => ch = '\n') ('\n' :: chunkCexB) = chunkCexB := by
    rw [List.dropWhile_cons_of_pos (by decide)]
    exact dropWhileNl_replicate_of_ne (show ¬ 'b' = '\n' by decide) 1500
  rw [hdw]
  rw [splitChunks_small
    (by intro hB
        have := congrArg List.length hB
        rw [chunkCexB_length, List.length_nil] at this
        exact absurd this (by norm_num))
    (by rw [chunkCexB_length]; norm_num [max_len])]

/-- **C2** counterexample to the claim as stated: for the 4501-character text
`3000·'a' ++ "\n" ++ 1500·'b'`, the loop splits at the newline and strips it,
so concatenating the chunks (each of which has no leading newline to strip)
yields a 4500-character string, not the original text. -/
theorem C2_counterexample :
    ((splitChunks chunkCex).map (fun c => c.dropWhile (fun ch => ch = '\n'))).flatten
      ≠ chunkCex := by
  rw [chunkCex_splits]
  have hmap : [chunkCexA, chunkCexB].map (fun c => c.dropWhile (fun ch => ch = '\n'))
      = [chunkCexA, chunkCexB] := by
    simp only [List.map_cons, List.map_nil]
    rw [show chunkCexA.dropWhile (fun ch => ch = '\n') = chunkCexA from
      dropWhileNl_replicate_of_ne (by decide) 3000]
    rw [show chunkCexB.dropWhile (fun ch => ch = '\n') = chunkCexB from
      dropWhileNl_replicate_of_ne (by decide) 1500]
  rw [hmap]
  intro hEq
  have hlen := congrArg List.length hEq
  rw [List.flatten_cons, List.flatten_cons, List.flatten_nil, List.append_nil,
    List.length_append, chunkCexA_length, chunkCexB_length, chunkCex_length] at hlen
  exact absurd hlen (by norm_num)

/-! ## Claim C3 -/

/-- **C3** (amended).  For every text longer than 4096 characters the loop
emits as next chunk `text.take (findSplit text)` and continues on the stripped
remainder, where the split index is the last newline before the limit *when
that newline lies in the second half of the window* (index ≥ 2048), and is a
hard cut at exactly 4096 when no newline occurs at an index in [2048, 4096) —
even if newlines exist in the first half.  (The original claim — split at the
last newline whenever one exists before the limit, hard-cut only when no
suitable newline exists in the first half of the window — is refuted by
`C3_counterexample`.) -/
theorem C3_split_characterisation (text : List Char) (h : max_len < text.length) :
    splitChunks text =
      text.take (findSplit text) ::
        splitChunks ((text.drop (findSplit text)).dropWhile (fun ch => ch = '\n')) ∧
    ((∃ i : Nat, max_len / 2 ≤ i ∧ i < max_len ∧ text[i]? = some '\n' ∧ findSplit text = i ∧
        ∀ j : Nat, i < j → j < max_len → text[j]? ≠ some '\n') ∨
      (findSplit text = max_len ∧
        ∀ j : Nat, max_len / 2 ≤ j → j < max_len → text[j]? ≠ some '\n')) := by
  refine ⟨splitChunks_cons h, ?_⟩
  have htl : (text.take max_len).length = max_len := by
    rw [List.length_take]
    omega
  cases hfind : lastIdxOf '\n' (text.take max_len) with
  | some i =>
      obtain ⟨hget, hmax⟩ := lastIdxOf_eq_some hfind
      have hi : i < max_len := by
        have := lastIdxOf_lt_length hfind
        omega
      by_cases hlt : i < max_len / 2
      · right
        refine ⟨by unfold findSplit; rw [hfind]; simp [hlt], ?_⟩
        intro j hj1 hj2 hc
        refine hmax j (by omega) ?_
        rw [List.getElem?_take_of_lt hj2]
        exact hc
      · left
        refine ⟨i, by omega, hi, ?_, ?_, ?_⟩
        · have heq := List.getElem?_take_of_lt (l := text) (n := max_len) hi
          rw [heq] at hget
          exact hget
        · unfold findSplit; rw [hfind]; simp [hlt]
        · intro j hj hjlen hc
          refine hmax j hj ?_
          rw [List.getElem?_take_of_lt hjlen]
          exact hc
  | none =>
      right
      refine ⟨by unfold findSplit; rw [hfind], ?_⟩
      intro j hj1 hj2 hc
      refine lastIdxOf_eq_none hfind j ?_
      rw [List.getElem?_take_of_lt hj2]
      exact hc

theorem C3_split_characterisation_witness :
    max_len < (List.replicate 4100 'x').length ∧
    (splitChunks (List.replicate 4100 'x') =
      (List.replicate 4100 'x').take (findSplit (List.replicate 4100 'x')) ::
        splitChunks (((List.replicate 4100 'x').drop
          (findSplit (List.replicate 4100 'x'))).dropWhile (fun ch => ch = '\n')) ∧
    ((∃ i : Nat, max_len / 2 ≤ i ∧ i < max_len ∧
        (List.replicate 4100 'x')[i]? = some '\n' ∧
        findSplit (List.replicate 4100 'x') = i ∧
        ∀ j : Nat, i < j → j < max_len → (List.replicate 4100 'x')[j]? ≠ some '\n') ∨
      (findSplit (List.replicate 4100 'x') = max_len ∧
        ∀ j : Nat, max_len / 2 ≤ j → j < max_len →
          (List.replicate 4100 'x')[j]? ≠ some '\n'))) :=
  ⟨by rw [List.length_replicate]; norm_num [max_len],
   C3_split_characterisation (List.replicate 4100 'x')
     (by rw [List.length_replicate]; norm_num [max_len])⟩

/-- A text whose only newline lies in the first half of the window. -/
def hardCutCex : List Char := '\n' :: List.replicate 5000 'a'

theorem hardCutCex_length : hardCutCex.length = 5001 := by
  rw [hardCutCex, List.length_cons, List.length_replicate]

theorem hardCutCex_take : hardCutCex.take max_len = '\n' :: List.replicate 4095 'a' := by
  have h0 : hardCutCex.take max_len = '\n' :: (List.replicate 5000 'a').take 4095 := rfl
  rw [h0, List.take_replicate, Nat.min_eq_left (by norm_num)]

theorem hardCutCex_rfind : lastIdxOf '\n' (hardCutCex.take max_len) = some 0 := by
  rw [hardCutCex_take]
  have hrep := lastIdxOf_replicate_of_ne (show ¬ 'a' = '\n' by decide) 4095
  unfold lastIdxOf
  rw [hrep]
  rfl

theorem hardCutCex_findSplit : findSplit hardCutCex = max_len := by
  unfold findSplit
  rw [hardCutCex_rfind]
  norm_num [max_len]

/-- **C3** counterexample to the claim as stated: for `"\n" ++ 5000·'a'` a
newline exists before the length limit (at index 0, reported by `rfind`), yet
the first chunk is the 4096-character hard cut, not a split at that newline
(it equals neither `take 0` nor `take 1` of the text). -/
theorem C3_counterexample :
    lastIdxOf '\n' (hardCutCex.take max_len) = some 0 ∧
    (splitChunks hardCutCex).head? = some (hardCutCex.take max_len) ∧
    (hardCutCex.take max_len).length = max_len ∧
    hardCutCex.take max_len ≠ hardCutCex.take 0 ∧
    hardCutCex.take max_len ≠ hardCutCex.take 1 := by
  have hchunks := @splitChunks_cons hardCutCex
    (by rw [hardCutCex_length]; norm_num [max_len])
  rw [hardCutCex_findSplit] at hchunks
  refine ⟨hardCutCex_rfind, ?_, ?_, ?_, ?_⟩
  · rw [hchunks]; rfl
  · rw [hardCutCex_take, List.length_cons, List.length_replicate]
    norm_num [max_len]
  · intro hEq
    have hl := congrArg List.length hEq
    rw [hardCutCex_take, List.take_zero, List.length_cons, List.length_replicate,
      List.length_nil] at hl
    exact absurd hl (by norm_num)
  · intro hEq
    have hl := congrArg List.length hEq
    have h1 : hardCutCex.take 1 = ['\n'] := rfl
    rw [hardCutCex_take, h1, List.length_cons, List.length_replicate,
      List.length_cons, List.length_nil] at hl
    exact absurd hl (by norm_num)

/-! ## JSON model and Python-operation semantics -/

/-- Decoded JSON values.  `Json.null` also stands for Python `None` (in
particular for `_http_get_json` returning `None` on a transport or decode
error: the two are indistinguishable to `build_raw_briefing`). -/
inductive Json where
  | null
  | bool (b : Bool)
  | num (q : Rat)
  | str (s : String)
  | arr (elems : List Json)
  | obj (fields : List (String × Json))

/-- Python truthiness (`if x:`) of a JSON value. -/
def Json.truthy : Json → Bool
  | .null => false
  | .bool b => b
  | .num q => q ≠ 0
  | .str s => s ≠ ""
  | .arr xs => !xs.isEmpty
  | .obj kvs => !kvs.isEmpty

/-- Python `d.get(key, default)`: raises `AttributeError` unless `d` is a dict
(keys are unique, as produced by `json.loads`). -/
def pyGet (v : Json) (key : String) (dflt : Json) : Except String Json :=
  match v with
  | .obj kvs => .ok ((kvs.lookup key).getD dflt)
  | _ => .error "AttributeError: no attribute get"

/-- Python `d[key]` for a string key: `KeyError` if missing, `TypeError` if
`d` is not a dict. -/
def pySubscript (v : Json) (key : String) : Except String Json :=
  match v with
  | .obj kvs =>
      match kvs.lookup key with
      | some x => .ok x
      | none => .error "KeyError"
  | _ => .error "TypeError: not subscriptable by str"

/-- Is `pat` a contiguous substring of `s`?  (Python `pat in s` for strings.) -/
def strContains (pat s : List Char) : Bool :=
  (List.range (s.length + 1)).any (fun i => pat.isPrefixOf (s.drop i))

/-- Python `key in v`: key membership for dicts, element membership for lists,
substring test for strings, `TypeError` otherwise. -/
def pyContains (key : String) (v : Json) : Except String Bool :=
  match v with
  | .obj kvs => .ok (kvs.any (fun kv => kv.1 = key))
  | .arr xs => .ok (xs.any (fun e => match e with | .str s => s = key | _ => false))
  | .str s => .ok (strContains key.data s.data)
  | _ => .error "TypeError: argument not iterable"

/-- Coerce a JSON value to a number, as Python arithmetic and numeric format
specs (`f"{x:+.1f}"` and friends) do; Python raises for non-numbers (bools
count as ints). -/
def pyToNum : Json → Except String Rat
  | .num q => .ok q
  | .bool b => .ok (if b then 1 else 0)
  | _ => .error "TypeError: not a number"

/-- Python `x.upper()`: only strings have `.upper`. -/
def pyUpper : Json → Except String String
  | .str s => .ok s.toUpper
  | _ => .error "AttributeError: no attribute upper"

/-- Python `str(x)` as used by plain f-string interpolation.  The exact
rendering of non-string values never matters to any claim. -/
def pyStr : Json → String
  | .null => "None"
  | .bool b => if b then "True" else "False"
  | .num q => toString q
  | .str s => s
  | .arr _ => "<list>"
  | .obj _ => "<dict>"

/-- Stand-in for Python `f"{q:+.1f}"`; the digit string is not modelled. -/
def fmtSigned (q : Rat) : String := if q < 0 then toString q else "+" ++ toString q

/-- Stand-in for Python `f"{q:,.1f}"`. -/
def fmtComma (q : Rat) : String := toString q

/-- Stand-in for Python `f"{q:,.2f}"`. -/
def fmtComma2 (q : Rat) : String := toString q

/-- Stand-in for Python `f"{q:.1f}"`. -/
def fmtFixed (q : Rat) : String := toString q

/-- Python `v[:n]` followed by iteration (`for c in v[:n]`): slicing works for
lists and strings (string iteration yields 1-character strings), anything else
raises `TypeError`. -/
def pySliceTake (v : Json) (n : Nat) : Except String (List Json) :=
  match v with
  | .arr xs => .ok (xs.take n)
  | .str s => .ok ((s.data.take n).map (fun c => .str (String.mk [c])))
  | _ => .error "TypeError: unsliceable"

/-- Python iteration `for c in v`: lists iterate elements, strings iterate
1-character strings, dicts iterate their keys. -/
def pyIterate (v : Json) : Except String (List Json) :=
  match v with
  | .arr xs => .ok xs
  | .str s => .ok (s.data.map (fun c => .str (String.mk [c])))
  | .obj kvs => .ok (kvs.map (fun kv => .str kv.1))
  | _ => .error "TypeError: not iterable"

/-! ## Source fetchers (lines 61-87) applied to decoded responses -/

/-- `fetch_coingecko_global`: `if data and "data" in data: return data["data"]`,
else `None`. -/
def fetch_coingecko_global (data : Json) : Except String Json := do
  if data.truthy then
    let b ← pyContains "data" data
    if b then pySubscript data "data" else pure .null
  else
    pure .null

/-- `fetch_coingecko_trending`: `if data and "coins" in data: return data["coins"]`,
else `None`. -/
def fetch_coingecko_trending (data : Json) : Except String Json := do
  if data.truthy then
    let b ← pyContains "coins" data
    if b then pySubscript data "coins" else pure .null
  else
    pure .null

/-- `fetch_coingecko_top_coins`: `return data if isinstance(data, list) else None`. -/
def fetch_coingecko_top_coins (data : Json) : Json :=
  match data with
  | .arr xs => .arr xs
  | _ => .null

/-! ## Briefing assembler (`build_raw_briefing`, lines 90-168) -/

/-- The `GLOBAL MARKET DATA` section (lines 98-112). -/
def globalSection (global_data : Json) : Except String String :=
  if global_data.truthy then do
    let t1 ← pyGet global_data "total_market_cap" (.obj [])
    let cap ← pyGet t1 "usd" (.num 0)
    let cap_change ← pyGet global_data "market_cap_change_percentage_24h_usd" (.num 0)
    let t2 ← pyGet global_data "market_cap_percentage" (.obj [])
    let btc_dom ← pyGet t2 "btc" (.num 0)
    let t3 ← pyGet global_data "market_cap_percentage" (.obj [])
    let eth_dom ← pyGet t3 "eth" (.num 0)
    let t4 ← pyGet global_data "total_volume" (.obj [])
    let vol ← pyGet t4 "usd" (.num 0)
    let capQ ← pyToNum cap
    let capChangeQ ← pyToNum cap_change
    let btcQ ← pyToNum btc_dom
    let ethQ ← pyToNum eth_dom
    let volQ ← pyToNum vol
    pure ("GLOBAL MARKET DATA:\n- Total Market Cap: $" ++ fmtComma (capQ / 1000000000)
      ++ "B (" ++ fmtSigned capChangeQ ++ "% 24h)\n- BTC Dominance: " ++ fmtFixed btcQ
      ++ "%\n- ETH Dominance: " ++ fmtFixed ethQ ++ "%\n- 24h Volume: $"
      ++ fmtComma (volQ / 1000000000) ++ "B\n")
  else
    pure "GLOBAL MARKET DATA: unavailable\n"

/-- One line of the `TRENDING COINS` loop (lines 118-128); `i` is the
1-based index from `enumerate(trending[:10], 1)`. -/
def trendingLine (i : Nat) (coin_data : Json) : Except String String := do
  let item ← pyGet coin_data "item" (.obj [])
  let name ← pyGet item "name" (.str "?")
  let symbol ← pyGet item "symbol" (.str "?")
  let rank ← pyGet item "market_cap_rank" (.str "?")
  let _price_btc ← pyGet item "price_btc" (.num 0)
  let data_info ← pyGet item "data" (.obj [])
  let price_change_24h : Json ←
    match data_info with
    | .obj _ => do
        let x ← pyGet data_info "price_change_percentage_24h" (.obj [])
        pyGet x "usd" (.num 0)
    | _ => pure (.num 0)
  let pc ← pyToNum price_change_24h
  pure ("  " ++ toString i ++ ". " ++ pyStr name ++ " (" ++ pyStr symbol
    ++ ") — Rank #" ++ pyStr rank ++ " — 24h: " ++ fmtSigned pc ++ "%")

/-- The trending part of the briefing (lines 115-131). -/
def trendingSection (trending : Json) : Except String (List String) := do
  if trending.truthy then
    let items ← pySliceTake trending 10
    let lines ← items.enum.mapM (fun p => trendingLine (p.1 + 1) p.2)
    pure (["TRENDING COINS ON COINGECKO:"] ++ lines ++ [""])
  else
    pure ["TRENDING COINS: unavailable\n"]

/-- One line of the `TOP 10 BY MARKET CAP` loop (lines 137-145); note the
Python `or 0` on the 24h change (falsy values become 0). -/
def topCoinLine (c : Json) : Except String String := do
  let name ← pyGet c "name" (.str "?")
  let symRaw ← pyGet c "symbol" (.str "?")
  let symbol ← pyUpper symRaw
  let price ← pyGet c "current_price" (.num 0)
  let changeRaw ← pyGet c "price_change_percentage_24h" (.num 0)
  let change := if changeRaw.truthy then changeRaw else .num 0
  let mcap ← pyGet c "market_cap" (.num 0)
  let priceQ ← pyToNum price
  let changeQ ← pyToNum change
  let mcapQ ← pyToNum mcap
  pure ("  " ++ pyStr name ++ " (" ++ symbol ++ "): $" ++ fmtComma2 priceQ
    ++ " | 24h: " ++ fmtSigned changeQ ++ "% | MCap: $"
    ++ fmtComma (mcapQ / 1000000000) ++ "B")

/-- Filter and sort key of the movers computation (lines 150-151):
keep `c` iff `c.get("price_change_percentage_24h") is not None`, keyed by that
value.  (A kept key that is not a number makes Python raise either inside
`sorted` or when formatting the gainer/loser lines; this model raises here,
which has the same raises/does-not-raise verdict in every case.) -/
def moverChange (c : Json) : Except String (Option (Rat × Json)) := do
  let v ← pyGet c "price_change_percentage_24h" .null
  match v with
  | .null => pure none
  | w => do
      let q ← pyToNum w
      pure (some (q, c))

/-- `f"{m['name']} ({m['symbol'].upper()}) {m['price_change_percentage_24h']:+.1f}%"`
(used for both the gainer and the loser, lines 159-160). -/
def moverLine (c : Json) : Except String String := do
  let n ← pySubscript c "name"
  let sj ← pySubscript c "symbol"
  let s ← pyUpper sj
  let chJ ← pySubscript c "price_change_percentage_24h"
  let ch ← pyToNum chJ
  pure (pyStr n ++ " (" ++ s ++ ") " ++ fmtSigned ch ++ "%")

/-- The `BIGGEST MOVERS` computation (lines 148-161) on the fetched coin list;
`none` when `sorted_by_change` is empty.  Python's stable
`sorted(..., key=..., reverse=True)` is `mergeSort` with the reflexive, total
comparison `b.1 ≤ a.1`; `top_gainer` is the head, `top_loser` the last. -/
def biggestMovers (top_coins : List Json) : Except String (Option String) := do
  let opts ← top_coins.mapM moverChange
  match opts.reduceOption.mergeSort (fun a b => b.1 ≤ a.1) with
  | [] => pure none
  | g :: rest => do
      let gLine ← moverLine g.2
      let lLine ← moverLine (rest.getLastD g).2
      pure (some ("BIGGEST MOVERS (top 20):\n  🟢 Top gainer: " ++ gLine
        ++ "\n  🔴 Top loser: " ++ lLine ++ "\n"))

/-- The top-coins part of the briefing (lines 134-163). -/
def topCoinsSection (top_coins : Json) : Except String (List String) := do
  if top_coins.truthy then
    let sliced ← pySliceTake top_coins 10
    let lines ← sliced.mapM topCoinLine
    let iterated ← pyIterate top_coins
    let movers ← biggestMovers iterated
    pure (["TOP 10 BY MARKET CAP:"] ++ lines ++ [""]
      ++ (match movers with | some m => [m] | none => []))
  else
    pure ["TOP COINS: unavailable\n"]

/-- `"\n".join(sections)`. -/
def joinNL : List String → String
  | [] => ""
  | [s] => s
  | s :: rest => s ++ "\n" ++ joinNL rest

/-- The `sections` list built by `build_raw_briefing` (lines 90-168), with the
three decoded HTTP responses and the configuration passed explicitly (`today`
is the timestamp string, `topics` is `DIGEST_TOPICS`). -/
def briefingSections (gResp trResp topResp : Json) (topics today : String) :
    Except String (List String) := do
  let s0 := "Data collected at: " ++ today ++ "\n"
  let global_data ← fetch_coingecko_global gResp
  let gSec ← globalSection global_data
  let trending ← fetch_coingecko_trending trResp
  let tSecs ← trendingSection trending
  let top_coins := fetch_coingecko_top_coins topResp
  let cSecs ← topCoinsSection top_coins
  let watch := if topics ≠ "" then ["USER WATCHLIST TOPICS: " ++ topics ++ "\n"] else []
  pure ([s0, gSec] ++ tSecs ++ cSecs ++ watch)

/-- `build_raw_briefing`: `"\n".join(sections)`. -/
def build_raw_briefing (gResp trResp topResp : Json) (topics today : String) :
    Except String String := do
  let secs ← briefingSections gResp trResp topResp topics today
  pure (joinNL secs)

/-! ## Claim C4 -/

/-- **C4** (amended).  When a source's data is absent — the fetcher yields a
falsy value, as happens for a `None` (transport/decode failure) response —
the assembler produces, without raising, a section string containing the
literal word "unavailable"; and missing numeric fields in an otherwise
well-shaped response default to 0.  (The original claim's "never raises for
*every* JSON value with malformed fields" is false: a field of the wrong type,
e.g. a string where an object is expected, makes `build_raw_briefing` raise —
see `C4_counterexample`.) -/
theorem C4_unavailable_sections :
    (∀ today : String,
      briefingSections .null .null .null "" today =
        .ok ["Data collected at: " ++ today ++ "\n",
          "GLOBAL MARKET DATA: unavailable\n",
          "TRENDING COINS: unavailable\n",
          "TOP COINS: unavailable\n"] ∧
      build_raw_briefing .null .null .null "" today =
        .ok (joinNL ["Data collected at: " ++ today ++ "\n",
          "GLOBAL MARKET DATA: unavailable\n",
          "TRENDING COINS: unavailable\n",
          "TOP COINS: unavailable\n"])) ∧
    (∀ gd : Json, gd.truthy = false →
      globalSection gd = .ok "GLOBAL MARKET DATA: unavailable\n") ∧
    (∀ td : Json, td.truthy = false →
      trendingSection td = .ok ["TRENDING COINS: unavailable\n"]) ∧
    (∀ tc : Json, tc.truthy = false →
      topCoinsSection tc = .ok ["TOP COINS: unavailable\n"]) ∧
    ((0 : Rat) / 1000000000 = 0 ∧
      globalSection (.obj [("total_market_cap", .obj []), ("market_cap_percentage", .obj [])])
      = .ok ("GLOBAL MARKET DATA:\n- Total Market Cap: $" ++ fmtComma (0 / 1000000000)
        ++ "B (" ++ fmtSigned 0 ++ "% 24h)\n- BTC Dominance: " ++ fmtFixed 0
        ++ "%\n- ETH Dominance: " ++ fmtFixed 0 ++ "%\n- 24h Volume: $"
        ++ fmtComma (0 / 1000000000) ++ "B\n")) := by
  refine ⟨fun today => ⟨rfl, rfl⟩, ?_, ?_, ?_, by norm_num, by rfl⟩
  · intro gd h
    simp only [globalSection, h, Bool.false_eq_true, if_false]
    rfl
  · intro td h
    simp only [trendingSection, h, Bool.false_eq_true, if_false]
    rfl
  · intro tc h
    simp only [topCoinsSection, h, Bool.false_eq_true, if_false]
    rfl

theorem C4_unavailable_sections_witness :
    (Json.null.truthy = false) ∧
    globalSection .null = .ok "GLOBAL MARKET DATA: unavailable\n" :=
  ⟨rfl, C4_unavailable_sections.2.1 .null rfl⟩

/-- **C4** counterexample to the claim as stated: for the global endpoint
response `{"data": "oops"}` — a malformed field — `build_raw_briefing`
raises (`"oops".get(...)` is an `AttributeError`) instead of producing a
section. -/
theorem C4_counterexample :
    (build_raw_briefing (.obj [("data", .str "oops")]) .null .null "" "D").isOk
      = false := rfl

/-! ## Claim C5: the biggest-movers section on well-shaped coin lists -/

theorem except_ok_bind {ε α β : Type} (a : α) (f : α → Except ε β) :
    (Except.ok a >>= f : Except ε β) = f a := rfl

theorem except_pure_eq_ok {ε α : Type} (a : α) : (pure a : Except ε α) = Except.ok a := rfl

theorem pyGet_obj (kvs : List (String × Json)) (k : String) (d : Json) :
    pyGet (.obj kvs) k d = .ok ((kvs.lookup k).getD d) := rfl

theorem exists_ok_of_isOk {ε α : Type} {e : Except ε α} (h : e.isOk = true) :
    ∃ a, e = .ok a := by
  cases e with
  | error e => simp [Except.isOk, Except.toBool] at h
  | ok a => exact ⟨a, rfl⟩

/-- A well-shaped entry of the top-coins response, restricted to the fields
the code reads; a `none` 24h change is JSON `null`. -/
structure CoinSpec where
  name : String
  symbol : String
  price : Rat
  change : Option Rat
  mcap : Rat

def mkCoin (c : CoinSpec) : Json :=
  .obj [("name", .str c.name), ("symbol", .str c.symbol),
    ("current_price", .num c.price),
    ("price_change_percentage_24h",
      match c.change with | some q => .num q | none => .null),
    ("market_cap", .num c.mcap)]

/-- The gainer/loser line rendered for a well-shaped coin. -/
def c5Line (c : CoinSpec) (q : Rat) : String :=
  c.name ++ " (" ++ c.symbol.toUpper ++ ") " ++ fmtSigned q ++ "%"

theorem moverChange_mkCoin (c : CoinSpec) :
    moverChange (mkCoin c) = .ok (c.change.map (fun q => (q, mkCoin c))) := by
  cases hch : c.change <;> (unfold moverChange mkCoin; rw [hch]; rfl)

theorem mapM_moverChange (coins : List CoinSpec) :
    (coins.map mkCoin).mapM moverChange
      = Except.ok (coins.map (fun c => c.change.map (fun q => (q, mkCoin c)))) := by
  induction coins with
  | nil => rfl
  | cons c cs ih =>
      simp only [List.map_cons, List.mapM_cons, moverChange_mkCoin, ih, except_ok_bind]
      rfl

theorem reduceOption_map_filterMap {α β : Type} (l : List α) (f : α → Option β) :
    (l.map f).reduceOption = l.filterMap f := by
  induction l with
  | nil => rfl
  | cons a as ih =>
      cases h : f a <;>
        simp [List.reduceOption_cons_of_none, List.reduceOption_cons_of_some, h, ih,
          List.filterMap_cons]

/-- The kept `(change, coin)` pairs of the movers filter, for well-shaped
coins. -/
def keptOf (coins : List CoinSpec) : List (Rat × Json) :=
  coins.filterMap (fun c => c.change.map (fun q => (q, mkCoin c)))

theorem mem_keptOf {coins : List CoinSpec} {x : Rat × Json} :
    x ∈ keptOf coins ↔ ∃ c ∈ coins, ∃ q : Rat, c.change = some q ∧ x = (q, mkCoin c) := by
  simp only [keptOf, List.mem_filterMap, Option.map_eq_some']
  constructor
  · rintro ⟨c, hc, q, hq, hx⟩
    exact ⟨c, hc, q, hq, hx.symm⟩
  · rintro ⟨c, hc, q, hq, rfl⟩
    exact ⟨c, hc, q, hq, rfl⟩

theorem moverLine_mkCoin (c : CoinSpec) (q : Rat) (h : c.change = some q) :
    moverLine (mkCoin c) = .ok (c5Line c q) := by
  unfold moverLine mkCoin c5Line
  rw [h]
  rfl

theorem topCoinLine_mkCoin_isOk (c : CoinSpec) : ∃ s, topCoinLine (mkCoin c) = .ok s := by
  cases hch : c.change with
  | none => exact ⟨_, by unfold topCoinLine mkCoin; rw [hch]; rfl⟩
  | some q =>
      apply exists_ok_of_isOk
      unfold topCoinLine mkCoin
      rw [hch]
      simp [pyGet_obj, except_ok_bind, List.lookup]
      by_cases hq0 : (Json.num q).truthy = true
      · simp only [hq0, if_true]
        rfl
      · simp only [hq0, if_false]
        rfl

theorem getLastD_mem_cons {α : Type} : ∀ (l : List α) (d : α), l.getLastD d ∈ d :: l
  | [], d => by simp [List.getLastD]
  | b :: bs, d => by
      rw [List.getLastD_cons]
      exact List.mem_cons_of_mem d (getLastD_mem_cons bs b)

theorem pairwise_desc_head_max {g : Rat × Json} {rest : List (Rat × Json)}
    (hp : (g :: rest).Pairwise (fun a b : Rat × Json => b.1 ≤ a.1)) :
    ∀ x ∈ g :: rest, x.1 ≤ g.1 := by
  intro x hx
  rcases List.mem_cons.mp hx with rfl | hx'
  · exact le_refl _
  · exact (List.pairwise_cons.mp hp).1 x hx'

theorem pairwise_desc_last_min : ∀ (rest : List (Rat × Json)) (g : Rat × Json),
    (g :: rest).Pairwise (fun a b : Rat × Json => b.1 ≤ a.1) →
    ∀ x ∈ g :: rest, (rest.getLastD g).1 ≤ x.1 := by
  intro rest
  induction rest with
  | nil =>
      intro g hp x hx
      simp only [List.getLastD]
      rcases List.mem_cons.mp hx with rfl | hx'
      · exact le_refl _
      · simp at hx'
  | cons b bs ih =>
      intro g hp x hx
      rw [List.getLastD_cons]
      have hp' := List.pairwise_cons.mp hp
      rcases List.mem_cons.mp hx with rfl | hx'
      · exact hp'.1 _ (getLastD_mem_cons bs b)
      · exact ih b hp'.2 x hx'

theorem mapM_ok_of_forall {α β : Type} (f : α → Except String β) (l : List α)
    (h : ∀ x ∈ l, ∃ y, f x = .ok y) : ∃ ys, l.mapM f = .ok ys := by
  induction l with
  | nil => exact ⟨[], rfl⟩
  | cons a as ih =>
      obtain ⟨y, hy⟩ := h a (by simp)
      obtain ⟨ys, hys⟩ := ih (fun x hx => h x (by simp [hx]))
      refine ⟨y :: ys, ?_⟩
      simp only [List.mapM_cons, hy, hys, except_ok_bind]
      rfl

/-- Comparison used by the descending stable sort (Python
`sorted(key=..., reverse=True)`). -/
theorem moversLe_trans : ∀ a b c : Rat × Json,
    (fun a b : Rat × Json => decide (b.1 ≤ a.1)) a b →
    (fun a b : Rat × Json => decide (b.1 ≤ a.1)) b c →
    (fun a b : Rat × Json => decide (b.1 ≤ a.1)) a c := by
  intro a b c hab hbc
  simp only [decide_eq_true_eq] at hab hbc ⊢
  exact le_trans hbc hab

theorem moversLe_total : ∀ a b : Rat × Json,
    ((fun a b : Rat × Json => decide (b.1 ≤ a.1)) a b
      || (fun a b : Rat × Json => decide (b.1 ≤ a.1)) b a) := by
  intro a b
  simp only [Bool.or_eq_true, decide_eq_true_eq]
  exact (le_total b.1 a.1)

/-- Core of claim C5: on any well-shaped coin list with at least one non-null
24h change, `biggestMovers` succeeds and names a gainer with maximal change
and a loser with minimal change. -/
theorem biggestMovers_spec (coins : List CoinSpec)
    (hmov : ∃ c ∈ coins, c.change ≠ none) :
    ∃ (g l : CoinSpec) (gq lq : Rat),
      g ∈ coins ∧ l ∈ coins ∧ g.change = some gq ∧ l.change = some lq ∧
      (∀ c ∈ coins, ∀ q : Rat, c.change = some q → q ≤ gq ∧ lq ≤ q) ∧
      biggestMovers (coins.map mkCoin) =
        .ok (some ("BIGGEST MOVERS (top 20):\n  🟢 Top gainer: " ++ c5Line g gq
          ++ "\n  🔴 Top loser: " ++ c5Line l lq ++ "\n")) := by
  obtain ⟨c₀, hc₀, hch₀⟩ := hmov
  obtain ⟨q₀, hq₀⟩ := Option.ne_none_iff_exists'.mp hch₀
  have hkept_ne : keptOf coins ≠ [] :=
    List.ne_nil_of_mem (mem_keptOf.mpr ⟨c₀, hc₀, q₀, hq₀, rfl⟩)
  have hsorted_ne :
      (keptOf coins).mergeSort (fun a b => decide (b.1 ≤ a.1)) ≠ [] := by
    intro h
    exact hkept_ne (List.Perm.nil_eq (h ▸ List.mergeSort_perm (keptOf coins) _)).symm
  obtain ⟨g', rest, hs⟩ := List.exists_cons_of_ne_nil hsorted_ne
  have hpair := @List.sorted_mergeSort (Rat × Json)
    (fun a b : Rat × Json => decide (b.1 ≤ a.1))
    moversLe_trans moversLe_total (keptOf coins)
  have hpairP : (g' :: rest).Pairwise (fun a b : Rat × Json => b.1 ≤ a.1) := by
    rw [hs] at hpair
    exact hpair.imp (fun hab => by simpa using hab)
  have hmem_sorted : ∀ x : Rat × Json, x ∈ g' :: rest ↔ x ∈ keptOf coins := by
    intro x
    rw [← hs]
    exact List.mem_mergeSort
  obtain ⟨gc, hgc, gq, hgq, hg'eq⟩ := mem_keptOf.mp ((hmem_sorted g').mp (by simp))
  obtain ⟨lc, hlc, lq, hlq, hl'eq⟩ :=
    mem_keptOf.mp ((hmem_sorted (rest.getLastD g')).mp (getLastD_mem_cons rest g'))
  have hmax := pairwise_desc_head_max hpairP
  have hmin := pairwise_desc_last_min rest g' hpairP
  refine ⟨gc, lc, gq, lq, hgc, hlc, hgq, hlq, ?_, ?_⟩
  · intro c hc q hq
    have hmem : (q, mkCoin c) ∈ g' :: rest :=
      (hmem_sorted _).mpr (mem_keptOf.mpr ⟨c, hc, q, hq, rfl⟩)
    constructor
    · have h1 := hmax _ hmem
      rw [hg'eq] at h1
      exact h1
    · have h1 := hmin _ hmem
      rw [hl'eq] at h1
      exact h1
  · unfold biggestMovers
    rw [mapM_moverChange, except_ok_bind, reduceOption_map_filterMap]
    simp only [show (coins.filterMap fun c => c.change.map (fun q => (q, mkCoin c)))
        = keptOf coins from rfl, hs]
    rw [hl'eq]
    rw [hg'eq]
    simp only [moverLine_mkCoin gc gq hgq, moverLine_mkCoin lc lq hlq, except_ok_bind]
    rfl

/-- **C5**.  For every well-shaped fetched top-coins list containing at least
one coin with a non-null 24h-change field, the biggest-movers section of the
raw briefing names as top gainer a coin whose 24h change is maximal over all
coins with non-null change, and as top loser one whose 24h change is minimal;
and that section string is one of the briefing's sections. -/
theorem C5_top_movers (coins : List CoinSpec) (today : String)
    (hmov : ∃ c ∈ coins, c.change ≠ none) :
    ∃ (g l : CoinSpec) (gq lq : Rat) (secs : List String),
      g ∈ coins ∧ l ∈ coins ∧ g.change = some gq ∧ l.change = some lq ∧
      (∀ c ∈ coins, ∀ q : Rat, c.change = some q → q ≤ gq ∧ lq ≤ q) ∧
      biggestMovers (coins.map mkCoin) =
        .ok (some ("BIGGEST MOVERS (top 20):\n  🟢 Top gainer: " ++ c5Line g gq
          ++ "\n  🔴 Top loser: " ++ c5Line l lq ++ "\n")) ∧
      briefingSections .null .null (.arr (coins.map mkCoin)) "" today = .ok secs ∧
      ("BIGGEST MOVERS (top 20):\n  🟢 Top gainer: " ++ c5Line g gq
        ++ "\n  🔴 Top loser: " ++ c5Line l lq ++ "\n") ∈ secs := by
  obtain ⟨g, l, gq, lq, hg, hl, hgq, hlq, hext, hbm⟩ := biggestMovers_spec coins hmov
  obtain ⟨lines, hlines⟩ := mapM_ok_of_forall topCoinLine ((coins.map mkCoin).take 10)
    (fun x hx => by
      obtain ⟨c, _, rfl⟩ := List.mem_map.mp (List.mem_of_mem_take hx)
      exact topCoinLine_mkCoin_isOk c)
  have hne : coins ≠ [] := by
    rintro rfl
    obtain ⟨c, hc, _⟩ := hmov
    simp at hc
  have htruthy : (Json.arr (coins.map mkCoin)).truthy = true := by
    simp [Json.truthy, List.isEmpty_iff, hne]
  have htop : topCoinsSection (.arr (coins.map mkCoin)) =
      .ok (["TOP 10 BY MARKET CAP:"] ++ lines ++ [""]
        ++ ["BIGGEST MOVERS (top 20):\n  🟢 Top gainer: " ++ c5Line g gq
          ++ "\n  🔴 Top loser: " ++ c5Line l lq ++ "\n"]) := by
    unfold topCoinsSection
    rw [if_pos htruthy]
    simp only [show pySliceTake (.arr (coins.map mkCoin)) 10
        = Except.ok ((coins.map mkCoin).take 10) from rfl,
      show pyIterate (.arr (coins.map mkCoin)) = Except.ok (coins.map mkCoin) from rfl,
      hlines, hbm, except_ok_bind, except_pure_eq_ok]
  refine ⟨g, l, gq, lq,
    ["Data collected at: " ++ today ++ "\n", "GLOBAL MARKET DATA: unavailable\n"]
      ++ ["TRENDING COINS: unavailable\n"]
      ++ (["TOP 10 BY MARKET CAP:"] ++ lines ++ [""]
        ++ ["BIGGEST MOVERS (top 20):\n  🟢 Top gainer: " ++ c5Line g gq
          ++ "\n  🔴 Top loser: " ++ c5Line l lq ++ "\n"]) ++ [],
    hg, hl, hgq, hlq, hext, hbm, ?_, ?_⟩
  · unfold briefingSections
    simp only [show fetch_coingecko_global .null = Except.ok Json.null from rfl,
      show globalSection .null = Except.ok "GLOBAL MARKET DATA: unavailable\n" from rfl,
      show fetch_coingecko_trending .null = Except.ok Json.null from rfl,
      show trendingSection .null = Except.ok ["TRENDING COINS: unavailable\n"] from rfl,
      show fetch_coingecko_top_coins (.arr (coins.map mkCoin))
        = Json.arr (coins.map mkCoin) from rfl,
      htop, except_ok_bind, except_pure_eq_ok]
    simp
  · simp

theorem C5_top_movers_witness :
    (∃ c ∈ [CoinSpec.mk "Alpha" "al" 1 (some 5) 2,
        CoinSpec.mk "Beta" "be" 1 (some (-3)) 2], c.change ≠ none) ∧
    (∃ (g l : CoinSpec) (gq lq : Rat) (secs : List String),
      g ∈ [CoinSpec.mk "Alpha" "al" 1 (some 5) 2,
        CoinSpec.mk "Beta" "be" 1 (some (-3)) 2] ∧
      l ∈ [CoinSpec.mk "Alpha" "al" 1 (some 5) 2,
        CoinSpec.mk "Beta" "be" 1 (some (-3)) 2] ∧
      g.change = some gq ∧ l.change = some lq ∧
      (∀ c ∈ [CoinSpec.mk "Alpha" "al" 1 (some 5) 2,
        CoinSpec.mk "Beta" "be" 1 (some (-3)) 2],
        ∀ q : Rat, c.change = some q → q ≤ gq ∧ lq ≤ q) ∧
      biggestMovers ([CoinSpec.mk "Alpha" "al" 1 (some 5) 2,
          CoinSpec.mk "Beta" "be" 1 (some (-3)) 2].map mkCoin) =
        .ok (some ("BIGGEST MOVERS (top 20):\n  🟢 Top gainer: " ++ c5Line g gq
          ++ "\n  🔴 Top loser: " ++ c5Line l lq ++ "\n")) ∧
      briefingSections .null .null
          (.arr ([CoinSpec.mk "Alpha" "al" 1 (some 5) 2,
            CoinSpec.mk "Beta" "be" 1 (some (-3)) 2].map mkCoin)) "" "D" = .ok secs ∧
      ("BIGGEST MOVERS (top 20):\n  🟢 Top gainer: " ++ c5Line g gq
        ++ "\n  🔴 Top loser: " ++ c5Line l lq ++ "\n") ∈ secs) :=
  ⟨⟨CoinSpec.mk "Alpha" "al" 1 (some 5) 2, by simp, by simp⟩,
   C5_top_movers _ "D" ⟨CoinSpec.mk "Alpha" "al" 1 (some 5) 2, by simp, by simp⟩⟩

/-! ## Summarizers (lines 191-284) -/

/-- Python `s.strip()`: drop leading and trailing whitespace. -/
def pyStrip (s : String) : String :=
  String.mk (((s.data.dropWhile Char.isWhitespace).reverse.dropWhile
    Char.isWhitespace).reverse)

/-- The response-extraction body of `summarize_claude` (inside the `try`,
lines 218-227): `content = body.get("content", [])`; if truthy and a list,
collect the `"text"` entries; join and strip if any.  An exception anywhere
here is caught by the `except` clauses and turned into `None`. -/
def claudeExtractBody (body : Json) : Except String (Option String) := do
  let content ← pyGet body "content" (.arr [])
  if content.truthy then
    match content with
    | .arr cs => do
        let opts ← cs.mapM (fun c => do
            let ty ← pyGet c "type" .null
            match ty with
            | .str s =>
                if s = "text" then do
                  let t ← pyGet c "text" (.str "")
                  pure (some t)
                else pure none
            | _ => pure none)
        let texts := opts.reduceOption
        if texts.isEmpty then pure none
        else do
          let strs ← texts.mapM (fun t =>
            match t with
            | .str s => Except.ok s
            | _ => Except.error "TypeError: sequence item is not str")
          pure (some (pyStrip (String.intercalate "\n" strs)))
    | _ => pure none
  else pure none

/-- `summarize_claude`: returns `None` immediately when no key is configured
(before any network request is built); `net` is the decoded network response,
`none` meaning the request raised (caught, logged, `None`). -/
def summarize_claude (key : String) (net : Option Json) : Option String :=
  if key = "" then none
  else
    match net with
    | none => none
    | some body =>
        match claudeExtractBody body with
        | .ok o => o
        | .error _ => none

/-- Python `v[0]`. -/
def pyIndexZero (v : Json) : Except String Json :=
  match v with
  | .arr (x :: _) => .ok x
  | .arr [] => .error "IndexError"
  | .str s =>
      match s.data with
      | c :: _ => .ok (.str (String.mk [c]))
      | [] => .error "IndexError"
  | .obj _ => .error "KeyError: 0"
  | _ => .error "TypeError: not subscriptable"

/-- The response-extraction body of `summarize_openai` (lines 264-271). -/
def openaiExtractBody (body : Json) : Except String (Option String) := do
  let choices ← pyGet body "choices" (.arr [])
  if choices.truthy then do
    let c0 ← pyIndexZero choices
    let m ← pyGet c0 "message" (.obj [])
    let t ← pyGet m "content" (.str "")
    match t with
    | .str s => if pyStrip s ≠ "" then pure (some (pyStrip s)) else pure none
    | _ => .error "AttributeError: no attribute strip"
  else pure none

/-- `summarize_openai`, same conventions as `summarize_claude`. -/
def summarize_openai (key : String) (net : Option Json) : Option String :=
  if key = "" then none
  else
    match net with
    | none => none
    | some body =>
        match openaiExtractBody body with
        | .ok o => o
        | .error _ => none

/-- `format_no_ai` (lines 281-284): fixed date header plus the raw briefing
truncated to 3500 characters. -/
def format_no_ai (raw today : String) : String :=
  "📰 Raw Crypto Briefing — " ++ today ++ "\n\n" ++ raw.take 3500

/-- The summarizer fallback chain of `main` (lines 380-393):
`summary = None`; `if ANTHROPIC_API_KEY: summary = summarize_claude(...)`;
`if summary is None and OPENAI_API_KEY: summary = summarize_openai(...)`;
`if summary is None: summary = format_no_ai(...)`. -/
def summarizeWithFallback (akey okey : String) (cNet oNet : Option Json)
    (raw today : String) : String :=
  let summary : Option String := if akey ≠ "" then summarize_claude akey cNet else none
  let summary := if summary.isNone ∧ okey ≠ "" then summarize_openai okey oNet else summary
  match summary with
  | none => format_no_ai raw today
  | some s => s

/-! ## Telegram notifier and `main` (lines 290-412) -/

/-- Outbound network requests performed during a run. -/
inductive NetCall where
  | fetchGlobal
  | fetchTrending
  | fetchTopCoins
  | claude
  | openai
  | telegramSend (chunk : List Char)
deriving DecidableEq

/-- `send_telegram` (lines 290-334): credential check, chunk splitting, one
send per chunk; the result is the `success` flag (the AND of all per-chunk
sends, where `sendOk` is the oracle for each chunk's outcome) and the list of
performed sends. -/
def send_telegram (botToken chatID : String) (sendOk : List Char → Bool)
    (text : List Char) : Bool × List NetCall :=
  if botToken = "" ∨ chatID = "" then (false, [])
  else
    ((splitChunks text).all sendOk, (splitChunks text).map NetCall.telegramSend)

/-- The fixed error-notice text of `send_error_notice` (line 339). -/
def noticeText (error_msg : String) : String :=
  "⚠️ Daily Digest Failed\n" ++ error_msg ++ "\nWill retry tomorrow."

/-- `send_error_notice` (lines 337-340): best-effort send of the fixed notice
to the same channel; its result is ignored by the caller. -/
def send_error_notice (botToken chatID : String) (sendOk : List Char → Bool)
    (error_msg : String) : Bool × List NetCall :=
  send_telegram botToken chatID sendOk (noticeText error_msg).data

/-- The environment configuration read by the script. -/
structure Config where
  anthropicKey : String
  openaiKey : String
  botToken : String
  chatID : String
  topics : String
  dryRun : Bool

/-- The outside world: decoded provider responses and the per-chunk Telegram
send outcome. -/
structure World where
  globalResp : Json
  trendingResp : Json
  topResp : Json
  claudeNet : Option Json
  openaiNet : Option Json
  sendOk : List Char → Bool

/-- `main` (lines 363-412), returning the process exit code (0: normal
return, 1: `sys.exit(1)`) and the list of network requests performed, in
order; `.error` is an uncaught exception.  The three market fetches always
happen once `build_raw_briefing` runs; the AI calls happen exactly when the
corresponding key check passes (`summarize_claude`/`summarize_openai` return
before any request when their key is empty). -/
def pyMain (cfg : Config) (w : World) (today now : String) :
    Except String (Nat × List NetCall) := do
  if ¬cfg.dryRun ∧ (cfg.botToken = "" ∨ cfg.chatID = "") then
    pure (1, [])
  else do
    let raw ← build_raw_briefing w.globalResp w.trendingResp w.topResp cfg.topics now
    let fetchFx : List NetCall := [.fetchGlobal, .fetchTrending, .fetchTopCoins]
    let claudeFx : List NetCall := if cfg.anthropicKey ≠ "" then [.claude] else []
    let s1 : Option String :=
      if cfg.anthropicKey ≠ "" then summarize_claude cfg.anthropicKey w.claudeNet else none
    let openaiFx : List NetCall :=
      if s1.isNone ∧ cfg.openaiKey ≠ "" then [.openai] else []
    let summary := summarizeWithFallback cfg.anthropicKey cfg.openaiKey
      w.claudeNet w.openaiNet raw today
    let message := format_digest today.data summary.data
    if cfg.dryRun then
      pure (0, fetchFx ++ claudeFx ++ openaiFx)
    else
      let sent := send_telegram cfg.botToken cfg.chatID w.sendOk message
      if sent.1 then
        pure (0, fetchFx ++ claudeFx ++ openaiFx ++ sent.2)
      else
        pure (1, fetchFx ++ claudeFx ++ openaiFx ++ sent.2
          ++ (send_error_notice cfg.botToken cfg.chatID w.sendOk
            "Failed to send digest message.").2)

theorem except_error_bind {ε α β : Type} (e : ε) (f : α → Except ε β) :
    (Except.error e >>= f : Except ε β) = Except.error e := rfl

theorem claude_not_mem_send (bt cid : String) (f : List Char → Bool) (t : List Char) :
    NetCall.claude ∉ (send_telegram bt cid f t).2 := by
  unfold send_telegram
  split
  · simp
  · intro hmem
    simp only at hmem
    rcases List.mem_map.mp hmem with ⟨chunk, _, habs⟩
    cases habs

/-! ## Claim C6 -/

/-- **C6**.  If the primary key is not configured and the secondary key is,
the chain skips the primary entirely — `summarize_claude` returns `None`
regardless of (and without consulting) any network response, and no `claude`
request appears in the run's trace — and the chain's result is the secondary
provider's text whenever it returns one. -/
theorem C6_skip_primary (okey : String) (cNet oNet : Option Json)
    (raw today text : String)
    (hokey : okey ≠ "") (hopenai : summarize_openai okey oNet = some text) :
    summarize_claude "" cNet = none ∧
    summarizeWithFallback "" okey cNet oNet raw today = text ∧
    (∀ (cfg : Config) (w : World) (td nw : String) (code : Nat) (fx : List NetCall),
      cfg.anthropicKey = "" → pyMain cfg w td nw = .ok (code, fx) →
      NetCall.claude ∉ fx) := by
  refine ⟨rfl, ?_, ?_⟩
  · unfold summarizeWithFallback
    simp [hokey, hopenai]
  · intro cfg w td nw code fx hak hrun
    unfold pyMain at hrun
    by_cases h1 : ¬cfg.dryRun ∧ (cfg.botToken = "" ∨ cfg.chatID = "")
    · rw [if_pos h1] at hrun
      simp only [except_pure_eq_ok, Except.ok.injEq, Prod.mk.injEq] at hrun
      rw [← hrun.2]
      simp
    · rw [if_neg h1] at hrun
      cases hbuild : build_raw_briefing w.globalResp w.trendingResp w.topResp cfg.topics nw with
      | error e =>
          rw [hbuild, except_error_bind] at hrun
          cases hrun
      | ok raw' =>
          rw [hbuild, except_ok_bind] at hrun
          simp only [hak, ne_eq, not_true_eq_false, if_false, reduceIte] at hrun
          by_cases hdry : cfg.dryRun = true
          · rw [if_pos hdry] at hrun
            simp only [except_pure_eq_ok, Except.ok.injEq, Prod.mk.injEq] at hrun
            rw [← hrun.2]
            intro hmem
            simp only [List.append_nil, List.nil_append, List.mem_append] at hmem
            rcases hmem with h | h
            · simp at h
            · split at h <;> simp at h
          · rw [if_neg hdry] at hrun
            by_cases hsent : (send_telegram cfg.botToken cfg.chatID w.sendOk
                (format_digest td.data (summarizeWithFallback "" cfg.openaiKey
                  w.claudeNet w.openaiNet raw' td).data)).1 = true
            · rw [if_pos hsent] at hrun
              simp only [except_pure_eq_ok, Except.ok.injEq, Prod.mk.injEq] at hrun
              rw [← hrun.2]
              intro hmem
              simp only [List.append_nil, List.nil_append, List.mem_append] at hmem
              rcases hmem with hmem | hmem
              · rcases hmem with hmem | hmem
                · simp at hmem
                · split at hmem <;> simp at hmem
              · exact claude_not_mem_send _ _ _ _ hmem
            · rw [if_neg hsent] at hrun
              simp only [except_pure_eq_ok, Except.ok.injEq, Prod.mk.injEq] at hrun
              rw [← hrun.2]
              intro hmem
              simp only [List.append_nil, List.nil_append, List.mem_append] at hmem
              rcases hmem with ((hmem | hmem) | hmem) | hmem
              · simp at hmem
              · split at hmem <;> simp at hmem
              · exact claude_not_mem_send _ _ _ _ hmem
              · exact claude_not_mem_send _ _ _ _ hmem

/-- Concrete OpenAI response used in the C6 witness. -/
def c6OpenaiResp : Json :=
  .obj [("choices", .arr [.obj [("message", .obj [("content", .str "hello")])]])]

/-- Concrete (unused) Claude response used in the C6 witness. -/
def c6ClaudeResp : Json :=
  .obj [("content", .arr [.obj [("type", .str "text"), ("text", .str "ignored")]])]

theorem C6_skip_primary_witness :
    (("k" : String) ≠ "") ∧
    summarize_openai "k" (some c6OpenaiResp) = some "hello" ∧
    summarize_claude "" (some c6ClaudeResp) = none ∧
    summarizeWithFallback "" "k" (some c6ClaudeResp) (some c6OpenaiResp) "raw" "D"
      = "hello" := by
  have h := C6_skip_primary "k" (some c6ClaudeResp) (some c6OpenaiResp)
    "raw" "D" "hello" (by decide) (by rfl)
  exact ⟨by decide, by rfl, h.1, h.2.1⟩

/-! ## Claim C7 -/

/-- **C7**.  If neither AI provider key is configured, the summary passed to
the formatter is exactly the deterministic local format: the fixed date header
followed by the raw briefing truncated to 3500 characters (which is
`format_no_ai`). -/
theorem C7_no_ai_deterministic (cNet oNet : Option Json) (raw today : String) :
    summarizeWithFallback "" "" cNet oNet raw today
        = "📰 Raw Crypto Briefing — " ++ today ++ "\n\n" ++ raw.take 3500 ∧
    summarizeWithFallback "" "" cNet oNet raw today = format_no_ai raw today := by
  constructor <;> rfl

/-! ## Claim C8 -/

/-- **C8** (amended).  In a non-dry-run invocation with a missing Telegram
credential (bot token or chat ID), `main` exits immediately with code 1 and
performs no network call.  (The original claim, unconditional on the mode, is
false: in dry-run mode missing credentials do not abort the run — it proceeds,
performs the three market fetches, and exits 0; see `C8_counterexample`.) -/
theorem C8_missing_credentials_abort (cfg : Config) (w : World) (today now : String)
    (hdry : cfg.dryRun = false) (hmiss : cfg.botToken = "" ∨ cfg.chatID = "") :
    pyMain cfg w today now = .ok (1, []) := by
  unfold pyMain
  rw [if_pos ⟨by simp [hdry], hmiss⟩]
  rfl

theorem C8_missing_credentials_abort_witness :
    ((Config.mk "" "" "" "c" "" false).dryRun = false) ∧
    ((Config.mk "" "" "" "c" "" false).botToken = "" ∨
      (Config.mk "" "" "" "c" "" false).chatID = "") ∧
    pyMain (Config.mk "" "" "" "c" "" false)
      (World.mk .null .null .null none none (fun _ => true)) "D" "T" = .ok (1, []) :=
  ⟨rfl, Or.inl rfl,
   C8_missing_credentials_abort _ _ "D" "T" rfl (Or.inl rfl)⟩

/-- **C8** counterexample to the claim as stated: with missing credentials but
`--dry-run` given, the run does *not* exit with code 1 before any network
call — it performs all three market fetches and finishes with code 0. -/
theorem C8_counterexample :
    pyMain (Config.mk "" "" "" "" "" true)
        (World.mk .null .null .null none none (fun _ => true)) "D" "T"
      = .ok (0, [.fetchGlobal, .fetchTrending, .fetchTopCoins]) ∧
    (0 : Nat) ≠ 1 ∧
    ([NetCall.fetchGlobal, .fetchTrending, .fetchTopCoins] : List NetCall) ≠ [] := by
  refine ⟨rfl, by decide, by decide⟩

/-! ## Claim C9 -/

/-- **C9**.  In a non-dry-run invocation with credentials set, when the digest
message fails to send, `main` sends the short fixed-text error notice to the
same channel (one chunk, as the notice is short) on a best-effort basis — the
exit code is 1 regardless of whether the notice itself succeeds — and exits
with code 1. -/
theorem splitChunks_ne_nil {text : List Char} (h : text ≠ []) :
    splitChunks text ≠ [] := by
  by_cases hle : text.length ≤ max_len
  · rw [splitChunks_small h hle]; simp
  · push_neg at hle
    rw [splitChunks_cons hle]
    simp

theorem format_digest_ne_nil (d s : List Char) : format_digest d s ≠ [] := by
  unfold format_digest
  intro h
  exact absurd (List.append_eq_nil.mp h).2 (List.cons_ne_nil _ _)

theorem send_telegram_false_of_allFalse (bt cid : String) (text : List Char)
    (hbt : bt ≠ "") (hcid : cid ≠ "") (hne : text ≠ []) :
    (send_telegram bt cid (fun _ => false) text).1 = false := by
  unfold send_telegram
  rw [if_neg (by simp [hbt, hcid])]
  cases hsc : splitChunks text with
  | nil => exact absurd hsc (splitChunks_ne_nil hne)
  | cons c cs => simp [hsc]

set_option maxRecDepth 8192 in
theorem C9_error_notice (cfg : Config) (w : World) (today now raw : String)
    (hdry : cfg.dryRun = false) (hbot : cfg.botToken ≠ "") (hchat : cfg.chatID ≠ "")
    (hbuild : build_raw_briefing w.globalResp w.trendingResp w.topResp cfg.topics now
      = .ok raw)
    (hfail : (send_telegram cfg.botToken cfg.chatID w.sendOk
        (format_digest today.data (summarizeWithFallback cfg.anthropicKey cfg.openaiKey
          w.claudeNet w.openaiNet raw today).data)).1 = false) :
    ∃ fx : List NetCall,
      pyMain cfg w today now = .ok (1, fx ++ (send_error_notice cfg.botToken cfg.chatID
        w.sendOk "Failed to send digest message.").2) ∧
      (send_error_notice cfg.botToken cfg.chatID w.sendOk "Failed to send digest message.").2
        = [NetCall.telegramSend (noticeText "Failed to send digest message.").data] := by
  constructor
  constructor
  · unfold pyMain
    rw [if_neg (by simp [hdry, hbot, hchat])]
    rw [hbuild, except_ok_bind]
    rw [if_neg (by simp [hdry])]
    rw [if_neg (by simp [hfail])]
    rw [except_pure_eq_ok]
  · unfold send_error_notice send_telegram
    rw [if_neg (by simp [hbot, hchat])]
    rw [show splitChunks (noticeText "Failed to send digest message.").data
        = [(noticeText "Failed to send digest message.").data] from rfl]
    rfl

theorem C9_error_notice_witness :
    (build_raw_briefing .null .null .null "" "T" = .ok (joinNL ["Data collected at: T\n",
      "GLOBAL MARKET DATA: unavailable\n", "TRENDING COINS: unavailable\n",
      "TOP COINS: unavailable\n"])) ∧
    (∃ fx : List NetCall,
      pyMain (Config.mk "" "" "b" "c" "" false)
          (World.mk .null .null .null none none (fun _ => false)) "D" "T"
        = .ok (1, fx ++ (send_error_notice "b" "c" (fun _ => false)
          "Failed to send digest message.").2) ∧
      (send_error_notice "b" "c" (fun _ => false) "Failed to send digest message.").2
        = [NetCall.telegramSend (noticeText "Failed to send digest message.").data]) :=
  ⟨rfl,
   C9_error_notice (Config.mk "" "" "b" "c" "" false)
     (World.mk .null .null .null none none (fun _ => false)) "D" "T"
     (joinNL ["Data collected at: T\n", "GLOBAL MARKET DATA: unavailable\n",
       "TRENDING COINS: unavailable\n", "TOP COINS: unavailable\n"])
     rfl (by decide) (by decide) rfl
     (send_telegram_false_of_allFalse "b" "c" _ (by decide) (by decide)
       (format_digest_ne_nil _ _))⟩

/-! ## Claim C10 -/

/-- **C10**.  The chunk-splitting loop always makes progress and terminates:
the chosen split index is never below half the window (`max_len / 2 = 2048`),
each iteration shrinks the remaining text by at least 2048 characters, every
produced chunk is non-empty, and the empty string yields zero chunks, in which
case `send_telegram` (with credentials set) reports success having performed
no send. -/
theorem C10_loop_progress (bt cid : String) (f : List Char → Bool)
    (hbt : bt ≠ "") (hcid : cid ≠ "") :
    (∀ text : List Char, max_len / 2 ≤ findSplit text) ∧
    (∀ text : List Char, max_len < text.length →
      ((text.drop (findSplit text)).dropWhile (fun ch => ch = '\n')).length
        ≤ text.length - max_len / 2) ∧
    (∀ text : List Char, ∀ c ∈ splitChunks text, c ≠ []) ∧
    splitChunks [] = [] ∧
    send_telegram bt cid f [] = (true, []) := by
  refine ⟨half_le_findSplit, ?_, mem_splitChunks_ne_nil, splitChunks_nil, ?_⟩
  · intro text hlen
    have hdw := (List.dropWhile_sublist (l := text.drop (findSplit text))
      (fun ch => decide (ch = '\n'))).length_le
    have hdrop : (text.drop (findSplit text)).length = text.length - findSplit text :=
      List.length_drop _ _
    have hhalf := half_le_findSplit text
    omega
  · unfold send_telegram
    rw [if_neg (by simp [hbt, hcid])]
    rfl

theorem C10_loop_progress_witness :
    (("b" : String) ≠ "") ∧ (("c" : String) ≠ "") ∧
    ((∀ text : List Char, max_len / 2 ≤ findSplit text) ∧
    (∀ text : List Char, max_len < text.length →
      ((text.drop (findSplit text)).dropWhile (fun ch => ch = '\n')).length
        ≤ text.length - max_len / 2) ∧
    (∀ text : List Char, ∀ c ∈ splitChunks text, c ≠ []) ∧
    splitChunks [] = [] ∧
    send_telegram "b" "c" (fun _ => true) [] = (true, [])) :=
  ⟨by decide, by decide,
   C10_loop_progress "b" "c" (fun _ => true) (by decide) (by decide)⟩

end DailyDigest
